import Mathlib

/-!
Verification of the tensordict indexing/shape utilities.

The definitions below are shallow embeddings of the Python functions in
`src/tensordict/utils.py` and `src/tensordict/nn/distributions/continuous.py`.
Dimension sizes are `Nat`, index values are `Int`, buffer payloads are `Int`
(for the jagged-tensor buffers) or `ℚ` (for the distribution parameters).
Fallible Python code (raising exceptions) is embedded with `Option`/`Except`.
-/

namespace Tensordict

/-- An element of a Python index tuple, as accepted by `_getitem_batch_size`
and `convert_ellipsis_to_idx`:
* `int` — a Python integer,
* `slc start stop step` — a Python `slice` object (fields may be `None`),
* `ilist` — a Python list of integers,
* `barr` — a 1-D boolean `torch.Tensor`,
* `newaxis` — Python `None`,
* `ellipsis` — the Python `Ellipsis` marker. -/
inductive IdxItem where
  | int (n : Int)
  | slc (start stop step : Option Int)
  | ilist (xs : List Int)
  | barr (bs : List Bool)
  | newaxis
  | ellipsis
deriving DecidableEq, Repr

/-- `len(range(*slice(start, stop, step).indices(n)))`: the number of positions
a Python slice selects from a dimension of size `n`.  Follows CPython's
`PySlice_Unpack`/`PySlice_AdjustIndices`; `none` is returned exactly when
`step == 0` (Python raises `ValueError`). -/
def sliceLen (start stop step : Option Int) (n : Nat) : Option Nat :=
  let nz : Int := n
  let st := step.getD 1
  if st = 0 then Option.none else
  let lower : Int := if st < 0 then -1 else 0
  let upper : Int := if st < 0 then nz - 1 else nz
  let adj : Int → Int := fun i =>
    if i < 0 then max (i + nz) lower else min i upper
  let a := match start with
    | Option.none => if st < 0 then upper else lower
    | Option.some i => adj i
  let b := match stop with
    | Option.none => if st < 0 then lower else upper
    | Option.some i => adj i
  if st < 0 then
    some (if b < a then (a - b - 1).toNat / (-st).toNat + 1 else 0)
  else
    some (if a < b then (b - a - 1).toNat / st.toNat + 1 else 0)

/-- Number of `true` entries of a boolean mask (`tensor.sum()` on a bool tensor). -/
def countTrue (bs : List Bool) : Nat := bs.count true

/-- In the model, the only index elements that are `torch.Tensor` instances are
1-D boolean tensors (`barr`); Python lists are not tensors. -/
def isTensor : IdxItem → Bool
  | .barr _ => true
  | _ => false

/-- An "array-like" index element: an integer list or a 1-D boolean array. -/
def isArrayLike : IdxItem → Bool
  | .ilist _ => true
  | .barr _ => true
  | _ => false

/-- Number of array-like (list / boolean-array) elements of an index tuple. -/
def arrayLikeCount (items : List IdxItem) : Nat := items.countP isArrayLike

/-- An element that NumPy counts as an advanced index for the placement rule
once at least one array-like element is present: integers as well as
array-likes (the NumPy docs call a bare `1` in `x[arr1, :, 1]` "an advanced
index in this regard"). -/
def isAdvanced : IdxItem → Bool
  | .int _ => true
  | .ilist _ => true
  | .barr _ => true
  | _ => false

/-- The broadcast lengths of the array-like elements, in tuple order (length
for a list, population count for a boolean mask). -/
def advLens (items : List IdxItem) : List Nat :=
  items.filterMap (fun it => match it with
    | .ilist xs => some xs.length
    | .barr bs => some (countTrue bs)
    | _ => Option.none)

/-- The advanced elements (integers included) occupy consecutive positions of
the tuple — no slice or `None` separates any two of them. -/
def advAdjacent (items : List IdxItem) : Bool :=
  ((items.dropWhile (fun it => !isAdvanced it)).dropWhile isAdvanced).all
    (fun it => !isAdvanced it)

/-- The advanced elements (integers included) form a prefix of the tuple. -/
def advFrontOnly (items : List IdxItem) : Bool :=
  (items.dropWhile isAdvanced).all (fun it => !isAdvanced it)

/-- The `for _item in items` loop of `_getitem_batch_size`
(src/tensordict/utils.py lines 114-141): walk the index elements against the
dimensions left to right; a slice consumes one dimension and contributes the
slice length, a list/bool-tensor consumes one dimension and contributes its
length/population count, `None` contributes a fresh `1`, a number consumes one
dimension and contributes nothing; remaining dimensions are appended.
`none` models the `RuntimeError`/`StopIteration`/`NotImplementedError` exits. -/
def walkBS (shape : List Nat) (items : List IdxItem) : Option (List Nat) :=
  match items with
  | [] => some shape
  | it :: rest =>
    match it with
    | .newaxis => (walkBS shape rest).map (1 :: ·)
    | .int _ =>
      match shape with
      | [] => Option.none
      | _ :: ds => walkBS ds rest
    | .slc a b c =>
      match shape with
      | [] => Option.none
      | d :: ds => (sliceLen a b c d).bind fun v => (walkBS ds rest).map (v :: ·)
    | .ilist xs =>
      match shape with
      | [] => Option.none
      | _ :: ds => (walkBS ds rest).map (xs.length :: ·)
    | .barr bs =>
      match shape with
      | [] => Option.none
      | _ :: ds => (walkBS ds rest).map (countTrue bs :: ·)
    | .ellipsis => Option.none

/-- The all-tensor fancy-indexing branch of `_getitem_batch_size`
(src/tensordict/utils.py lines 102-112): all elements must share the shape of
the first one, which is returned; `none` models the `RuntimeError` on a shape
mismatch and the `IndexError` of `items[0]` on an empty tuple. -/
def fancyShape : List IdxItem → Option (List Nat)
  | .barr bs :: rest =>
    if rest.all (fun it => match it with
        | .barr bs2 => bs2.length == bs.length
        | _ => true) then
      some [bs.length]
    else Option.none
  | _ => Option.none

/-- The tuple path of `_getitem_batch_size` (lines 98-141): the all-tensor
fancy branch when every element is a tensor and the tuple is as long as the
shape, the general walk otherwise. -/
def tuplePath (shape : List Nat) (items : List IdxItem) : Option (List Nat) :=
  if items.all isTensor && items.length == shape.length then
    fancyShape items
  else
    walkBS shape items

/-- The single-element dispatch of `_getitem_batch_size` (lines 84-96), applied
after a one-element tuple is unwrapped: an integer drops the leading
dimension, a 1-D boolean tensor contributes its population count, a non-empty
list contributes its length while an empty list falls back to `shape[1:]`;
any other element is re-wrapped and handled by the tuple path. -/
def singleItem (shape : List Nat) : IdxItem → Option (List Nat)
  | .int _ => some (shape.drop 1)
  | .barr bs => some (countTrue bs :: shape.drop 1)
  | .ilist xs =>
    if xs.isEmpty then some (shape.drop 1) else some (xs.length :: shape.drop 1)
  | it => tuplePath shape [it]

/-- Embedding of `_getitem_batch_size(shape, items)`
(src/tensordict/utils.py lines 68-141) for a tuple index `items`.
A one-element tuple is unwrapped and dispatched on the single element
(lines 84-96); otherwise the all-tensor fancy branch or the general walk
applies. -/
def getitemBatchSize (shape : List Nat) (items : List IdxItem) : Option (List Nat) :=
  match items with
  | [it] => singleItem shape it
  | _ => tuplePath shape items

/-- Modelled from the spec: the dimension walk behind `probe[idx].shape`
(spec §8, "`inferShape(S, idx)` equals `probe[idx].shape`"; the array engine
is not part of src/).  Each element is checked for validity (integers and
list entries in range, boolean masks of matching length, slice step nonzero,
no more consuming elements than dimensions); a slice contributes its slice
length in place, `None` contributes a `1`, and unconsumed trailing dimensions
are appended.  `n` is the common broadcast length of the advanced indices and
`emitted` records whether it has already been placed: at the first advanced
element met with `emitted = false` the walk emits the broadcast length there
(`n` for an integer, the element's own length or population count for a list
or mask — the caller's equal-lengths guard makes these coincide), and all
further advanced elements only consume their dimension.  Called with `emitted = true` throughout, no broadcast dimension
is emitted at all: this is the basic walk (integers simply drop their
dimension), also used for the separated-advanced case where the broadcast
dimension is prepended by the caller. -/
def npWalk (shape : List Nat) (items : List IdxItem) (n : Nat) (emitted : Bool) :
    Option (List Nat) :=
  match items with
  | [] => some shape
  | it :: rest =>
    match it with
    | .newaxis => (npWalk shape rest n emitted).map (1 :: ·)
    | .slc a b c =>
      match shape with
      | [] => Option.none
      | d :: ds =>
        (sliceLen a b c d).bind fun v => (npWalk ds rest n emitted).map (v :: ·)
    | .int m =>
      match shape with
      | [] => Option.none
      | d :: ds =>
        if -(d : Int) ≤ m ∧ m < (d : Int) then
          if emitted then npWalk ds rest n true
          else (npWalk ds rest n true).map (n :: ·)
        else Option.none
    | .ilist xs =>
      match shape with
      | [] => Option.none
      | d :: ds =>
        if xs.all (fun e => decide (-(d : Int) ≤ e ∧ e < (d : Int))) then
          if emitted then npWalk ds rest n true
          else (npWalk ds rest n true).map (xs.length :: ·)
        else Option.none
    | .barr bs =>
      match shape with
      | [] => Option.none
      | d :: ds =>
        if bs.length = d then
          if emitted then npWalk ds rest n true
          else (npWalk ds rest n true).map (countTrue bs :: ·)
        else Option.none
    | .ellipsis => Option.none

/-- Modelled from the spec: `probe[idx].shape` for a zero-filled array `probe`
of shape `shape` (spec §8), following NumPy's advanced-indexing rules for
tuples of integers, slices, `None`, integer lists and 1-D boolean masks:
* no array-like element — basic indexing, the purely positional walk;
* array-like elements present — every integer in the tuple also counts as an
  advanced index; the array-likes must share one broadcast length `n`
  (broadcasting a scalar integer against 1-D arrays of length `n` gives a
  single dimension `n`; arrays of differing lengths are left unmodelled);
  if the advanced indices sit at consecutive tuple positions the dimension
  `n` replaces the whole block in place, otherwise it is moved to the front
  of the result, followed by the basic dimensions in order. -/
def npShape (shape : List Nat) (items : List IdxItem) : Option (List Nat) :=
  if arrayLikeCount items = 0 then
    npWalk shape items 0 true
  else if (advLens items).all (· == (advLens items).headD 0) then
    if advAdjacent items then
      npWalk shape items ((advLens items).headD 0) false
    else
      (npWalk shape items ((advLens items).headD 0) true).map
        ((advLens items).headD 0 :: ·)
  else Option.none

/-! ## Ellipsis normalizer: `convert_ellipsis_to_idx` -/

/-- The distinct exception exits of `convert_ellipsis_to_idx`
(src/tensordict/utils.py lines 144-196):
* `notEnoughDims` — `RuntimeError("Not enough dimensions in TensorDict for index provided.")`,
* `multipleEllipsis` — `RuntimeError("An index can only have one ellipsis at most.")`,
* `typeErrorNone` — the `TypeError` raised at line 181 by `num_dims -
  after_ellipsis_length - before_ellipsis_length` when `start_pos` is still `None`,
* `incompatibleLen` — `RuntimeError("The new index ... is incompatible with ...")`. -/
inductive EllipsisErr where
  | notEnoughDims
  | multipleEllipsis
  | typeErrorNone
  | incompatibleLen
deriving DecidableEq, Repr

/-- Is an index element the `Ellipsis` marker? -/
def isEllipsis : IdxItem → Bool
  | .ellipsis => true
  | _ => false

/-- The `for i, item in enumerate(idx)` loop of `convert_ellipsis_to_idx`
(lines 170-178): record the position of the first ellipsis, raise on a second
one, and count the non-ellipsis items after the first ellipsis. -/
def scanGo (i : Nat) (sp : Option Nat) (after : Nat) :
    List IdxItem → Except EllipsisErr (Option Nat × Nat)
  | [] => .ok (sp, after)
  | it :: rest =>
    if isEllipsis it then
      match sp with
      | some _ => .error .multipleEllipsis
      | Option.none => scanGo (i + 1) (some i) after rest
    else
      match sp with
      | some p => scanGo (i + 1) (some p) (after + 1) rest
      | Option.none => scanGo (i + 1) Option.none after rest

/-- Embedding of `convert_ellipsis_to_idx(idx, batch_size)`
(src/tensordict/utils.py lines 144-196) for a tuple index `idx`. -/
def convert_ellipsis_to_idx (idx : List IdxItem) (batch_size : List Nat) :
    Except EllipsisErr (List IdxItem) :=
  let numDims := batch_size.length
  let numEllipsis := idx.countP isEllipsis
  if numDims < idx.length - numEllipsis then .error .notEnoughDims
  else
    match scanGo 0 Option.none 0 idx with
    | .error e => .error e
    | .ok (Option.none, _) => .error .typeErrorNone
    | .ok (some startPos, after) =>
      let ellipsisLength := numDims - after - startPos
      let newIndex := idx.take startPos
        ++ List.replicate ellipsisLength (IdxItem.slc Option.none Option.none Option.none)
        ++ (idx.drop (startPos + 1)).take after
      if newIndex.length ≠ numDims then .error .incompatibleLen
      else .ok newIndex

/-! ## Ragged fields: `KeyedJaggedTensor` read/write -/

/-- Modelled from the spec: a torchrec `KeyedJaggedTensor` (the class itself is
an external dependency, not under src/).  Per spec §3, a ragged field holds a
flat `values` buffer, a flat `weights` buffer, a `keys` list, and per-key,
per-batch-element `lengths`; `offsets` are derived as the cumulative sums of
`lengths` prefixed by 0 (what torchrec's `kjt.offsets()` returns for a tensor
constructed from lengths). -/
structure KJT where
  keys : List String
  lengths : List Nat
  values : List Int
  weights : List Int
deriving DecidableEq, Repr

/-- Cumulative sums starting from `a`: `cumsumFrom a [l0, l1, ...] =
[a, a + l0, a + l0 + l1, ...]` (one element longer than the input). -/
def cumsumFrom (a : Nat) : List Nat → List Nat
  | [] => [a]
  | x :: xs => a :: cumsumFrom (a + x) xs

/-- `kjt.offsets()`: cumulative sums of the lengths prefixed by 0. -/
def KJT.offsets (t : KJT) : List Nat := cumsumFrom 0 t.lengths

/-- Rows `0 .. k-1` of `mat.view(_, N)[:, index]`, flattened row-major. -/
def colSelectGo (N : Nat) (mat : List Nat) (index : List Nat) : Nat → List Nat
  | 0 => []
  | k + 1 => colSelectGo N mat index k ++ index.map (fun c => mat.getD (k * N + c) 0)

/-- `mat.view(K, N)[:, index].reshape(-1)` for a flat row-major `(K, N)`
matrix `mat`: select the columns listed in `index` from each of the `K` rows,
flattened row-major. -/
def colSelect (K N : Nat) (mat : List Nat) (index : List Nat) : List Nat :=
  colSelectGo N mat index K

/-- The index `j` of the last occurrence of `c` in `idx` (the occurrence whose
write wins in `mat[:, idx] = src` when `idx` has duplicates). -/
def lastIdxOf (idx : List Nat) (c : Nat) : Option Nat :=
  (List.range idx.length).foldl
    (fun acc j => if idx.getD j 0 = c then some j else acc) Option.none

/-- `out = mat.view(K, N).clone(); out[:, index] = src.view(K, M); out.view(-1)`:
overwrite the columns listed in `index` of the flat row-major `(K, N)` matrix
`mat` with the columns of the flat row-major `(K, M)` matrix `src`. -/
def scatterCols (K N : Nat) (mat : List Nat) (index : List Nat) (src : List Nat)
    (M : Nat) : List Nat :=
  (List.range (K * N)).map (fun p =>
    match lastIdxOf index (p % N) with
    | some j => src.getD ((p / N) * M + j) 0
    | Option.none => mat.getD p 0)

/-- `base[pos] = src` for a flat buffer: positions listed in `pos` receive the
corresponding entries of `src` (last write wins on duplicates), the others
keep their `base` entry.  Size/bound checks are performed by the callers. -/
def scatterAt (base : List Int) (pos : List Nat) (src : List Int) : List Int :=
  (List.range base.length).map (fun t =>
    match lastIdxOf pos t with
    | some j => src.getD j 0
    | Option.none => base.getD t 0)

/-- The exception exits of the ragged-field read/write paths:
* `intIndex` — the `ValueError` for a bare integer batch index (line 422),
* `divByZero` — Python `ZeroDivisionError` from `len(lengths) // len(keys)`
  on an empty key list,
* `keyMismatch` — `KeyError("Mismatch in orig_tensor and other keys.")` (line 507),
* `shapeMismatch` — a torch `view`/assignment shape error,
* `indexOutOfRange` — a torch out-of-range indexing error. -/
inductive KJTErr where
  | intIndex
  | divByZero
  | keyMismatch
  | shapeMismatch
  | indexOutOfRange
deriving DecidableEq, Repr

/-- A batch index for a ragged field: a bare Python integer, or a list of
batch positions (a list / 1-D integer tensor / array). -/
inductive KJTIndex where
  | int (i : Int)
  | ilist (xs : List Nat)
deriving DecidableEq, Repr

/-- Positions `t` covered by one of the half-open ranges
`[off1[i], off2[i])` — the boolean `sel` mask of lines 439-442/522-525. -/
def coveredBy (off1 off2 : List Nat) (t : Nat) : Bool :=
  (off1.zip off2).any (fun ab => decide (ab.1 ≤ t) && decide (t < ab.2))

/-- Embedding of `index_keyedjaggedtensor(kjt, index)`
(src/tensordict/utils.py lines 393-451): select, per key, the flat-buffer
ranges of the chosen batch rows and rebuild a `KeyedJaggedTensor` from the
gathered values/weights and the selected lengths. -/
def index_keyedjaggedtensor (kjt : KJT) (index : KJTIndex) : Except KJTErr KJT :=
  match index with
  | .int _ => .error .intIndex
  | .ilist idx =>
    if kjt.keys.length = 0 then .error .divByZero else
    let K := kjt.keys.length
    let N := kjt.lengths.length / K
    if kjt.lengths.length ≠ K * N then .error .shapeMismatch else
    if idx.any (fun c => decide (N ≤ c)) then .error .indexOutOfRange else
    let offsets := kjt.offsets
    let off1 := colSelect K N (offsets.take (K * N)) idx
    let off2 := colSelect K N (offsets.drop 1) idx
    let lengths2 := colSelect K N kjt.lengths idx
    let total := offsets.getLastD 0
    let fullIndex := (List.range total).filter (coveredBy off1 off2)
    if fullIndex.any (fun t => decide (kjt.values.length ≤ t)) then
      .error .indexOutOfRange else
    if fullIndex.any (fun t => decide (kjt.weights.length ≤ t)) then
      .error .indexOutOfRange else
    .ok { keys := kjt.keys
          lengths := lengths2
          values := fullIndex.map (fun t => kjt.values.getD t 0)
          weights := fullIndex.map (fun t => kjt.weights.getD t 0) }

/-- The overwritten lengths of `setitem_keyedjaggedtensor` (lines 516-518):
`orig.lengths.view(K, N)` with the columns listed in `index` replaced by
`other.lengths.view(K, M)`, flattened. -/
def setLengthsOut (orig other : KJT) (index : List Nat) : List Nat :=
  scatterCols orig.keys.length (orig.lengths.length / orig.keys.length)
    orig.lengths index other.lengths (other.lengths.length / other.keys.length)

/-- The boolean `sel` mask of lines 522-525/540-548: position `t` lies in one
of the half-open ranges `[offsets[:-1].view(K,N)[:,index], offsets[1:].view(K,N)[:,index])`. -/
def rowRangesSel (offsets : List Nat) (K N : Nat) (index : List Nat)
    (t : Nat) : Bool :=
  coveredBy (colSelect K N (offsets.take (K * N)) index)
    (colSelect K N (offsets.drop 1) index) t

/-- `index_to_keep` (line 526): the flat positions of `orig` not covered by
the batch columns listed in `index`. -/
def setIndexToKeep (orig : KJT) (index : List Nat) : List Nat :=
  (List.range (orig.offsets.getLastD 0)).filter
    (fun t => ! rowRangesSel orig.offsets orig.keys.length
      (orig.lengths.length / orig.keys.length) index t)

/-- `values_to_keep` (line 527). -/
def setValuesToKeep (orig : KJT) (index : List Nat) : List Int :=
  (setIndexToKeep orig index).map (fun t => orig.values.getD t 0)

/-- `weights_to_keep` (line 529). -/
def setWeightsToKeep (orig : KJT) (index : List Nat) : List Int :=
  (setIndexToKeep orig index).map (fun t => orig.weights.getD t 0)

/-- The recomputed offsets (lines 533-534): cumulative sums of the
overwritten lengths prefixed by 0. -/
def setNewOffsets (orig other : KJT) (index : List Nat) : List Nat :=
  cumsumFrom 0 (setLengthsOut orig other index)

/-- `new_index_new_elts` (lines 539-544): positions of the new buffer covered
by the written batch columns, under the recomputed offsets. -/
def setNewElts (orig other : KJT) (index : List Nat) : List Nat :=
  (List.range ((setNewOffsets orig other index).getLastD 0)).filter
    (rowRangesSel (setNewOffsets orig other index) orig.keys.length
      (orig.lengths.length / orig.keys.length) index)

/-- `new_index_to_keep` (lines 545-549): positions of the new buffer not
covered by the written batch columns. -/
def setNewKeep (orig other : KJT) (index : List Nat) : List Nat :=
  (List.range ((setNewOffsets orig other index).getLastD 0)).filter
    (fun t => ! rowRangesSel (setNewOffsets orig other index) orig.keys.length
      (orig.lengths.length / orig.keys.length) index t)

/-- `values_numel` (line 552): size of the freshly allocated buffers. -/
def setNumel (orig other : KJT) (index : List Nat) : Nat :=
  (setValuesToKeep orig index).length + other.values.length

/-- Embedding of `setitem_keyedjaggedtensor(orig_tensor, index, other)`
(src/tensordict/utils.py lines 454-576): overwrite the lengths of the batch
columns listed in `index` with `other`'s lengths, recompute offsets, keep the
values/weights of the uncovered positions, scatter kept and new
values/weights into a freshly allocated buffer, and rebuild the tensor (whose
contents the Python code then copies field-by-field into `orig_tensor`,
returning the same object reference; the embedding returns the new contents).
`torch.empty` is modelled as a zero-filled allocation, and the torch
`view`/assignment shape and bound checks are the explicit guards below (a
size-1 broadcastable right-hand side is modelled as an error as well). -/
def setitem_keyedjaggedtensor (orig : KJT) (index : List Nat) (other : KJT) :
    Except KJTErr KJT :=
  if orig.keys.length = 0 then .error .divByZero else
  if other.keys.length = 0 then .error .divByZero else
  if other.keys ≠ orig.keys then .error .keyMismatch else
  if orig.lengths.length
      ≠ orig.keys.length * (orig.lengths.length / orig.keys.length) then
    .error .shapeMismatch else
  if other.lengths.length
      ≠ orig.keys.length * (other.lengths.length / other.keys.length) then
    .error .shapeMismatch else
  if index.any (fun c => decide (orig.lengths.length / orig.keys.length ≤ c)) then
    .error .indexOutOfRange else
  if index.length ≠ other.lengths.length / other.keys.length then
    .error .shapeMismatch else
  if (setIndexToKeep orig index).any (fun t => decide (orig.values.length ≤ t)) then
    .error .indexOutOfRange else
  if (setIndexToKeep orig index).any (fun t => decide (orig.weights.length ≤ t)) then
    .error .indexOutOfRange else
  if (setNewKeep orig other index).length ≠ (setValuesToKeep orig index).length then
    .error .shapeMismatch else
  if (setNewElts orig other index).length ≠ other.values.length then
    .error .shapeMismatch else
  if (setNewKeep orig other index).any
      (fun t => decide (setNumel orig other index ≤ t)) then
    .error .indexOutOfRange else
  if (setNewElts orig other index).any
      (fun t => decide (setNumel orig other index ≤ t)) then
    .error .indexOutOfRange else
  if (setNewKeep orig other index).length ≠ (setWeightsToKeep orig index).length then
    .error .shapeMismatch else
  if (setNewElts orig other index).length ≠ other.weights.length then
    .error .shapeMismatch else
  .ok { keys := orig.keys
        lengths := setLengthsOut orig other index
        values := scatterAt
          (scatterAt (List.replicate (setNumel orig other index) 0)
            (setNewKeep orig other index) (setValuesToKeep orig index))
          (setNewElts orig other index) other.values
        weights := scatterAt
          (scatterAt (List.replicate (setNumel orig other index) 0)
            (setNewKeep orig other index) (setWeightsToKeep orig index))
          (setNewElts orig other index) other.weights }

/-- Embedding of `_shape` for the `KeyedJaggedTensor` branch
(src/tensordict/utils.py lines 588-594): the batch shape of a ragged field is
`[len(lengths) // len(keys)]`. -/
def kjtShape (t : KJT) : List Nat := [t.lengths.length / t.keys.length]

/-! ## `NormalParamWrapper.forward` -/

/-- A `NormalParamWrapper` (src/tensordict/nn/distributions/continuous.py
lines 21-70), reduced to the data its `forward` uses on a network output:
the scale-mapping function and the scale lower bound.  The mapping registry
`tensordict.nn.utils.mappings` is not under src/; per the spec (§6) it maps a
registered name to a scalar mapping function, so `forward` is modelled
parametrically over that function, with real scalars modelled as `ℚ`. -/
structure NormalParamWrapper where
  scale_mapping : ℚ → ℚ
  scale_lb : ℚ

/-- Modelled from the spec: the `relu` entry of the mapping registry
(`"relu"` is one of the registered choices listed in the
`NormalParamWrapper` docstring): `relu(x) = max(x, 0)`. -/
def reluMap (x : ℚ) : ℚ := max x 0

/-- Embedding of `NormalParamWrapper.forward` (lines 63-70) on the trailing
dimension of the network output: `net_output.chunk(2, -1)` splits a trailing
dimension of size `n` into its first `⌈n/2⌉` entries (the location) and the
rest; the scale is the mapping applied pointwise followed by
`clamp_min(scale_lb)`. -/
def NormalParamWrapper.forward (m : NormalParamWrapper) (xs : List ℚ) :
    List ℚ × List ℚ :=
  let loc := xs.take ((xs.length + 1) / 2)
  let scaleRaw := xs.drop ((xs.length + 1) / 2)
  (loc, scaleRaw.map (fun x => max (m.scale_mapping x) m.scale_lb))

/-! ## Helper lemmas -/

instance {ε α : Type} [DecidableEq ε] [DecidableEq α] : DecidableEq (Except ε α) :=
  fun a b =>
  match a, b with
  | .ok x, .ok y => if h : x = y then isTrue (by rw [h]) else isFalse (by simp [h])
  | .error x, .error y =>
    if h : x = y then isTrue (by rw [h]) else isFalse (by simp [h])
  | .ok _, .error _ => isFalse (by simp)
  | .error _, .ok _ => isFalse (by simp)

theorem getLastD_cumsumFrom (l : List Nat) :
    ∀ a d, (cumsumFrom a l).getLastD d = a + l.sum := by
  induction l with
  | nil => intro a d; simp [cumsumFrom]
  | cons x xs ih =>
    intro a d
    simp only [cumsumFrom, List.getLastD_cons, ih, List.sum_cons]
    omega

theorem length_filter_partition {α : Type} (l : List α) (p : α → Bool) :
    (l.filter p).length + (l.filter (fun x => ! p x)).length = l.length := by
  induction l with
  | nil => simp
  | cons x xs ih =>
    cases hx : p x <;> (simp [List.filter_cons, hx]; try omega)

theorem length_colSelectGo (N : Nat) (mat index : List Nat) :
    ∀ k, (colSelectGo N mat index k).length = k * index.length := by
  intro k
  induction k with
  | zero => simp [colSelectGo]
  | succ n ih => simp [colSelectGo, ih, Nat.succ_mul]

theorem length_colSelect (K N : Nat) (mat index : List Nat) :
    (colSelect K N mat index).length = K * index.length :=
  length_colSelectGo N mat index K

theorem length_scatterAt (base : List Int) (pos : List Nat) (src : List Int) :
    (scatterAt base pos src).length = base.length := by
  simp [scatterAt]

theorem length_scatterCols (K N : Nat) (mat index src : List Nat) (M : Nat) :
    (scatterCols K N mat index src M).length = K * N := by
  simp [scatterCols]

theorem sum_eq_of_partition_checks (L : List Nat) (P : Nat → Bool) (a b : Nat)
    (h1 : ((List.range ((cumsumFrom 0 L).getLastD 0)).filter (fun t => ! P t)).length = a)
    (h2 : ((List.range ((cumsumFrom 0 L).getLastD 0)).filter P).length = b) :
    L.sum = a + b := by
  have hpart := length_filter_partition (List.range ((cumsumFrom 0 L).getLastD 0)) P
  have hlast := getLastD_cumsumFrom L 0 0
  rw [List.length_range] at hpart
  omega

theorem lt_of_mem_filter_range {n t : Nat} {p : Nat → Bool}
    (h : t ∈ (List.range n).filter p) : t < n :=
  List.mem_range.mp (List.mem_filter.mp h).1

/-! ## Walk agreement lemmas for the shape-inference engine -/

theorem arrayLikeCount_cons (it : IdxItem) (rest : List IdxItem) :
    arrayLikeCount (it :: rest)
      = (if isArrayLike it then 1 else 0) + arrayLikeCount rest := by
  simp [arrayLikeCount, List.countP_cons]
  cases h : isArrayLike it <;> (simp [h]; try omega)

theorem advLens_cons_ilist (xs : List Int) (rest : List IdxItem) :
    advLens (IdxItem.ilist xs :: rest) = xs.length :: advLens rest := by
  simp [advLens, List.filterMap_cons]

theorem advLens_cons_barr (bs : List Bool) (rest : List IdxItem) :
    advLens (IdxItem.barr bs :: rest) = countTrue bs :: advLens rest := by
  simp [advLens, List.filterMap_cons]

theorem advLens_cons_other (it : IdxItem) (rest : List IdxItem)
    (h : isArrayLike it = false) :
    advLens (it :: rest) = advLens rest := by
  cases it <;> simp_all [isArrayLike, advLens, List.filterMap_cons]

theorem advLens_length (items : List IdxItem) :
    (advLens items).length = arrayLikeCount items := by
  induction items with
  | nil => rfl
  | cons it rest ih =>
    rw [arrayLikeCount_cons]
    cases it with
    | int m =>
      rw [advLens_cons_other _ _ (by simp [isArrayLike]), ih]
      simp [isArrayLike]
    | slc a b c =>
      rw [advLens_cons_other _ _ (by simp [isArrayLike]), ih]
      simp [isArrayLike]
    | newaxis =>
      rw [advLens_cons_other _ _ (by simp [isArrayLike]), ih]
      simp [isArrayLike]
    | ellipsis =>
      rw [advLens_cons_other _ _ (by simp [isArrayLike]), ih]
      simp [isArrayLike]
    | ilist xs =>
      rw [advLens_cons_ilist]
      simp [isArrayLike, ih]
      try omega
    | barr bs =>
      rw [advLens_cons_barr]
      simp [isArrayLike, ih]
      try omega

theorem arrayLikeCount_eq_zero_of_advLens_nil (items : List IdxItem)
    (h : advLens items = []) : arrayLikeCount items = 0 := by
  rw [← advLens_length, h]
  rfl

theorem advLens_nil_of_all_basic (items : List IdxItem)
    (h : items.all (fun it => !isAdvanced it) = true) : advLens items = [] := by
  induction items with
  | nil => rfl
  | cons it rest ih =>
    simp only [List.all_cons, Bool.and_eq_true] at h
    cases it with
    | int m =>
      rw [advLens_cons_other _ _ (by simp [isArrayLike])]
      exact ih h.2
    | slc a b c =>
      rw [advLens_cons_other _ _ (by simp [isArrayLike])]
      exact ih h.2
    | newaxis =>
      rw [advLens_cons_other _ _ (by simp [isArrayLike])]
      exact ih h.2
    | ellipsis =>
      rw [advLens_cons_other _ _ (by simp [isArrayLike])]
      exact ih h.2
    | ilist xs => exact absurd h.1 (by simp [isAdvanced])
    | barr bs => exact absurd h.1 (by simp [isAdvanced])

theorem advAdjacent_cons_basic (it : IdxItem) (rest : List IdxItem)
    (h : isAdvanced it = false) :
    advAdjacent (it :: rest) = advAdjacent rest := by
  simp [advAdjacent, List.dropWhile_cons, h]

theorem advAdjacent_cons_adv (it : IdxItem) (rest : List IdxItem)
    (h : isAdvanced it = true) :
    advAdjacent (it :: rest) = advFrontOnly rest := by
  simp [advAdjacent, advFrontOnly, List.dropWhile_cons, h]

theorem advFrontOnly_cons_adv (it : IdxItem) (rest : List IdxItem)
    (h : isAdvanced it = true) :
    advFrontOnly (it :: rest) = advFrontOnly rest := by
  simp [advFrontOnly, List.dropWhile_cons, h]

theorem advFrontOnly_cons_basic (it : IdxItem) (rest : List IdxItem)
    (h : isAdvanced it = false) :
    advFrontOnly (it :: rest) = (it :: rest).all (fun x => !isAdvanced x) := by
  simp [advFrontOnly, List.dropWhile_cons, h]

/-- With no array-like element the probe walk is basic indexing and agrees
with the code walk wherever it succeeds. -/
theorem walkAgreeBasic (items : List IdxItem) :
    ∀ (shape : List Nat) (n : Nat) (r : List Nat),
      arrayLikeCount items = 0 → npWalk shape items n true = some r →
      walkBS shape items = some r := by
  induction items with
  | nil =>
    intro shape n r _ h
    simpa [npWalk, walkBS] using h
  | cons it rest ih =>
    intro shape n r hc h
    rw [arrayLikeCount_cons] at hc
    cases it with
    | newaxis =>
      simp only [npWalk, Option.map_eq_some'] at h
      obtain ⟨r', hr', rfl⟩ := h
      simp only [walkBS, Option.map_eq_some']
      exact ⟨r', ih shape n r' (by simpa [isArrayLike] using hc) hr', rfl⟩
    | slc a b c =>
      cases shape with
      | nil => simp [npWalk] at h
      | cons d ds =>
        simp only [npWalk, Option.bind_eq_some, Option.map_eq_some'] at h
        obtain ⟨v, hv, r', hr', rfl⟩ := h
        simp only [walkBS, hv, Option.some_bind, Option.map_eq_some']
        exact ⟨r', ih ds n r' (by simpa [isArrayLike] using hc) hr', rfl⟩
    | int m =>
      cases shape with
      | nil => simp [npWalk] at h
      | cons d ds =>
        simp only [npWalk] at h
        split at h
        · simp only [if_true] at h
          exact ih ds n r (by simpa [isArrayLike] using hc) h
        · exact absurd h (by simp)
    | ilist xs => simp [isArrayLike] at hc
    | barr bs => simp [isArrayLike] at hc
    | ellipsis => simp [npWalk] at h

/-- Inside an advanced block whose broadcast length has already been emitted:
if the advanced elements form a prefix holding exactly one array-like of
broadcast length `n`, the code walk produces the emitted-free probe walk's
output with `n` put back in front. -/
theorem walkAgreeFront (items : List IdxItem) :
    ∀ (shape : List Nat) (n : Nat) (z : List Nat),
      advFrontOnly items = true → advLens items = [n] →
      npWalk shape items n true = some z →
      walkBS shape items = some (n :: z) := by
  induction items with
  | nil =>
    intro shape n z _ hlen _
    simp [advLens] at hlen
  | cons it rest ih =>
    intro shape n z hfront hlen h
    cases it with
    | int m =>
      rw [advFrontOnly_cons_adv _ _ (by simp [isAdvanced])] at hfront
      rw [advLens_cons_other _ _ (by simp [isArrayLike])] at hlen
      cases shape with
      | nil => simp [npWalk] at h
      | cons d ds =>
        simp only [npWalk] at h
        split at h
        · simp only [if_true] at h
          simpa [walkBS] using ih ds n z hfront hlen h
        · exact absurd h (by simp)
    | ilist xs =>
      rw [advLens_cons_ilist] at hlen
      injection hlen with hxn hrest
      cases shape with
      | nil => simp [npWalk] at h
      | cons d ds =>
        simp only [npWalk] at h
        split at h
        · simp only [if_true] at h
          have hw := walkAgreeBasic rest ds n z
            (arrayLikeCount_eq_zero_of_advLens_nil rest hrest) h
          simp [walkBS, hw, hxn]
        · exact absurd h (by simp)
    | barr bs =>
      rw [advLens_cons_barr] at hlen
      injection hlen with hxn hrest
      cases shape with
      | nil => simp [npWalk] at h
      | cons d ds =>
        simp only [npWalk] at h
        split at h
        · simp only [if_true] at h
          have hw := walkAgreeBasic rest ds n z
            (arrayLikeCount_eq_zero_of_advLens_nil rest hrest) h
          simp [walkBS, hw, hxn]
        · exact absurd h (by simp)
    | slc a b c =>
      exfalso
      rw [advFrontOnly_cons_basic _ _ (by simp [isAdvanced])] at hfront
      rw [advLens_nil_of_all_basic _ hfront] at hlen
      exact absurd hlen (by simp)
    | newaxis =>
      exfalso
      rw [advFrontOnly_cons_basic _ _ (by simp [isAdvanced])] at hfront
      rw [advLens_nil_of_all_basic _ hfront] at hlen
      exact absurd hlen (by simp)
    | ellipsis => simp [npWalk] at h

/-- Adjacent-advanced case: with exactly one array-like element (broadcast
length `n`) whose advanced block is contiguous, the probe walk that emits the
broadcast length at the first advanced element agrees with the code walk
wherever it succeeds. -/
theorem walkAgreeAdj (items : List IdxItem) :
    ∀ (shape : List Nat) (n : Nat) (r : List Nat),
      advLens items = [n] → advAdjacent items = true →
      npWalk shape items n false = some r →
      walkBS shape items = some r := by
  induction items with
  | nil =>
    intro shape n r hlen _ _
    simp [advLens] at hlen
  | cons it rest ih =>
    intro shape n r hlen hadj h
    cases it with
    | newaxis =>
      rw [advLens_cons_other _ _ (by simp [isArrayLike])] at hlen
      rw [advAdjacent_cons_basic _ _ (by simp [isAdvanced])] at hadj
      simp only [npWalk, Option.map_eq_some'] at h
      obtain ⟨r', hr', rfl⟩ := h
      simp only [walkBS, Option.map_eq_some']
      exact ⟨r', ih shape n r' hlen hadj hr', rfl⟩
    | slc a b c =>
      rw [advLens_cons_other _ _ (by simp [isArrayLike])] at hlen
      rw [advAdjacent_cons_basic _ _ (by simp [isAdvanced])] at hadj
      cases shape with
      | nil => simp [npWalk] at h
      | cons d ds =>
        simp only [npWalk, Option.bind_eq_some, Option.map_eq_some'] at h
        obtain ⟨v, hv, r', hr', rfl⟩ := h
        simp only [walkBS, hv, Option.some_bind, Option.map_eq_some']
        exact ⟨r', ih ds n r' hlen hadj hr', rfl⟩
    | int m =>
      rw [advLens_cons_other _ _ (by simp [isArrayLike])] at hlen
      rw [advAdjacent_cons_adv _ _ (by simp [isAdvanced])] at hadj
      cases shape with
      | nil => simp [npWalk] at h
      | cons d ds =>
        simp only [npWalk] at h
        split at h
        · simp only [Bool.false_eq_true, if_false, Option.map_eq_some'] at h
          obtain ⟨z, hz, rfl⟩ := h
          simp only [walkBS]
          exact walkAgreeFront rest ds n z hadj hlen hz
        · exact absurd h (by simp)
    | ilist xs =>
      rw [advLens_cons_ilist] at hlen
      injection hlen with hxn hrest
      cases shape with
      | nil => simp [npWalk] at h
      | cons d ds =>
        simp only [npWalk] at h
        split at h
        · simp only [Bool.false_eq_true, if_false, Option.map_eq_some'] at h
          obtain ⟨z, hz, rfl⟩ := h
          have hw := walkAgreeBasic rest ds n z
            (arrayLikeCount_eq_zero_of_advLens_nil rest hrest) hz
          simp [walkBS, hw]
        · exact absurd h (by simp)
    | barr bs =>
      rw [advLens_cons_barr] at hlen
      injection hlen with hxn hrest
      cases shape with
      | nil => simp [npWalk] at h
      | cons d ds =>
        simp only [npWalk] at h
        split at h
        · simp only [Bool.false_eq_true, if_false, Option.map_eq_some'] at h
          obtain ⟨z, hz, rfl⟩ := h
          have hw := walkAgreeBasic rest ds n z
            (arrayLikeCount_eq_zero_of_advLens_nil rest hrest) hz
          simp [walkBS, hw]
        · exact absurd h (by simp)
    | ellipsis => simp [npWalk] at h

/-- An all-tensor tuple consists entirely of array-like elements. -/
theorem arrayLikeCount_of_all_tensor (items : List IdxItem)
    (h : items.all isTensor = true) : arrayLikeCount items = items.length := by
  induction items with
  | nil => simp [arrayLikeCount]
  | cons it rest ih =>
    simp only [List.all_cons, Bool.and_eq_true] at h
    rw [arrayLikeCount_cons, ih h.2]
    cases it <;> (simp_all [isTensor, isArrayLike]; try omega)

/-- The code result follows from the code walk in every reachable
configuration: the one-element-tuple unwrap, the empty tuple, and the
all-tensor fancy guard never change the answer within the amended claim's
scope. -/
theorem code_eq_of_walkBS (shape : List Nat) (items : List IdxItem)
    (r : List Nat)
    (hal : arrayLikeCount items ≤ 1)
    (hne : ¬(shape = [] ∧ items = []))
    (hempty : items ≠ [IdxItem.ilist []])
    (hwalk : walkBS shape items = some r) :
    getitemBatchSize shape items = some r := by
  cases items with
  | nil =>
    simp only [walkBS, Option.some.injEq] at hwalk
    subst hwalk
    cases shape with
    | nil => exact absurd ⟨rfl, rfl⟩ hne
    | cons d ds => simp [getitemBatchSize, tuplePath, walkBS]
  | cons it rest =>
    cases rest with
    | nil =>
      cases it with
      | int m =>
        cases shape with
        | nil => simp [walkBS] at hwalk
        | cons d ds =>
          simp only [walkBS, Option.some.injEq] at hwalk
          subst hwalk
          simp [getitemBatchSize, singleItem]
      | ilist xs =>
        cases xs with
        | nil => exact absurd rfl hempty
        | cons y ys =>
          cases shape with
          | nil => simp [walkBS] at hwalk
          | cons d ds =>
            simp only [walkBS, Option.map_some', Option.some.injEq] at hwalk
            subst hwalk
            simp [getitemBatchSize, singleItem]
      | barr bs =>
        cases shape with
        | nil => simp [walkBS] at hwalk
        | cons d ds =>
          simp only [walkBS, Option.map_some', Option.some.injEq] at hwalk
          subst hwalk
          simp [getitemBatchSize, singleItem]
      | slc a b c =>
        simp [getitemBatchSize, singleItem, tuplePath, isTensor, hwalk]
      | newaxis =>
        simp [getitemBatchSize, singleItem, tuplePath, isTensor, hwalk]
      | ellipsis => simp [walkBS] at hwalk
    | cons it2 rest2 =>
      have hg : ((it :: it2 :: rest2).all isTensor
          && (it :: it2 :: rest2).length == shape.length) ≠ true := by
        intro hcon
        simp only [Bool.and_eq_true] at hcon
        have hall := arrayLikeCount_of_all_tensor _ hcon.1
        simp only [List.length_cons] at hall
        omega
      simp only [getitemBatchSize, tuplePath, if_neg hg]
      exact hwalk

/-! ## Claims C1 and C2: the shape-inference engine -/

/-- C1 (counterexample): the claim "`_getitem_batch_size(S, idx)` equals the
shape of `probe[idx]` for every index tuple of slices, integers, lists,
boolean arrays, or `None`" fails at `S = (4,5,6)`, `idx = ([0,1], [0,1])`:
NumPy broadcasts the two advanced indices together and yields shape `(2,6)`,
while the code walks them independently and returns `(2,2,6)`.  (A bare
integer separated from a list by a slice diverges as well:
`probe[(0, slice(None), [0,1])]` has shape `(2,5)` — the integer counts as an
advanced index and the broadcast dimension moves to the front — where the
code returns `(5,2)`.) -/
theorem c1_counterexample :
    npShape [4, 5, 6] [IdxItem.ilist [0, 1], IdxItem.ilist [0, 1]] = some [2, 6] ∧
    getitemBatchSize [4, 5, 6] [IdxItem.ilist [0, 1], IdxItem.ilist [0, 1]]
      = some [2, 2, 6] ∧
    npShape [4, 5, 6]
        [IdxItem.int 0, IdxItem.slc Option.none Option.none Option.none,
          IdxItem.ilist [0, 1]]
      = some [2, 5] ∧
    getitemBatchSize [4, 5, 6]
        [IdxItem.int 0, IdxItem.slc Option.none Option.none Option.none,
          IdxItem.ilist [0, 1]]
      = some [5, 2] := by
  decide

/-- C1 (amended): for every base shape and every ellipsis-free index tuple of
slices, integers, lists, 1-D boolean arrays, or `None` that contains at most
one list/boolean-array element, whose advanced elements — the integers
together with that array, which NumPy treats as advanced for the placement
rule whenever an array index is present — occupy consecutive positions (or
that contains no array element at all), that is not the one-element tuple
holding an empty list, and that is not the empty tuple on an empty shape,
`_getitem_batch_size(S, idx)` equals the shape of `probe[idx]` whenever the
probe indexing is defined. -/
theorem c1_theorem (shape : List Nat) (items : List IdxItem) (r : List Nat)
    (hal : arrayLikeCount items ≤ 1)
    (hadj : arrayLikeCount items = 0 ∨ advAdjacent items = true)
    (hne : ¬(shape = [] ∧ items = []))
    (hempty : items ≠ [IdxItem.ilist []])
    (h : npShape shape items = some r) :
    getitemBatchSize shape items = some r := by
  refine code_eq_of_walkBS shape items r hal hne hempty ?_
  unfold npShape at h
  by_cases hc0 : arrayLikeCount items = 0
  · rw [if_pos hc0] at h
    exact walkAgreeBasic items shape 0 r hc0 h
  · rw [if_neg hc0] at h
    have hc1 : arrayLikeCount items = 1 := by omega
    obtain ⟨n, hn⟩ := List.length_eq_one.mp
      (by rw [advLens_length]; exact hc1)
    rw [hn] at h
    simp only [List.headD_cons, List.all_cons, List.all_nil, Bool.and_true,
      beq_self_eq_true, if_true] at h
    have hadj' : advAdjacent items = true := hadj.resolve_left hc0
    rw [if_pos hadj'] at h
    exact walkAgreeAdj items shape n r hn hadj' h

/-- C1 (witness): a concrete instance of the amended claim, at
`S = (4,5,6)`, `idx = (1, [0,2])` — an adjacent integer-and-list pair. -/
theorem c1_witness :
    getitemBatchSize [4, 5, 6] [IdxItem.int 1, IdxItem.ilist [0, 2]]
      = some [2, 6] :=
  c1_theorem [4, 5, 6] [IdxItem.int 1, IdxItem.ilist [0, 2]] [2, 6]
    (by decide) (by decide) (by decide) (by decide) (by decide)

/-- C2 (counterexample): the claimed third example is wrong: the code returns
`_getitem_batch_size((4,5,6), (slice(1,3), None)) = (2,1,5,6)` — the walk
only consumes the first dimension and appends the remaining dimensions
`5, 6` — not `(2,1,6)` as the claim states. -/
theorem c2_counterexample :
    getitemBatchSize [4, 5, 6]
        [IdxItem.slc (some 1) (some 3) Option.none, IdxItem.newaxis]
      = some [2, 1, 5, 6] ∧
    getitemBatchSize [4, 5, 6]
        [IdxItem.slc (some 1) (some 3) Option.none, IdxItem.newaxis]
      ≠ some [2, 1, 6] := by
  decide

/-- C2 (amended): the three concrete shape-inference examples, with the third
result corrected to `(2,1,5,6)`:
`_getitem_batch_size((4,5,6), (0,)) = (5,6)`,
`_getitem_batch_size((4,5,6), ([0,2],)) = (2,5,6)`, and
`_getitem_batch_size((4,5,6), (slice(1,3), None)) = (2,1,5,6)`. -/
theorem c2_theorem :
    getitemBatchSize [4, 5, 6] [IdxItem.int 0] = some [5, 6] ∧
    getitemBatchSize [4, 5, 6] [IdxItem.ilist [0, 2]] = some [2, 5, 6] ∧
    getitemBatchSize [4, 5, 6]
        [IdxItem.slc (some 1) (some 3) Option.none, IdxItem.newaxis]
      = some [2, 1, 5, 6] := by
  decide

/-! ## Scan lemmas for the ellipsis normalizer -/

theorem take_len_of_append {α : Type} (l₁ l₂ : List α) :
    (l₁ ++ l₂).take l₁.length = l₁ := by
  induction l₁ <;> simp_all

theorem drop_succ_of_append {α : Type} (l₁ l₂ : List α) (x : α) :
    (l₁ ++ x :: l₂).drop (l₁.length + 1) = l₂ := by
  induction l₁ <;> simp_all

theorem scanGo_no_ellipsis_none (l : List IdxItem)
    (hl : ∀ it ∈ l, isEllipsis it = false) :
    ∀ i a, scanGo i Option.none a l = .ok (Option.none, a) := by
  induction l with
  | nil => intro i a; rfl
  | cons it rest ih =>
    intro i a
    simp only [scanGo, hl it (by simp), Bool.false_eq_true, if_false]
    exact ih (fun x hx => hl x (by simp [hx])) (i + 1) a

theorem scanGo_no_ellipsis_some (l : List IdxItem)
    (hl : ∀ it ∈ l, isEllipsis it = false) :
    ∀ i p a, scanGo i (some p) a l = .ok (some p, a + l.length) := by
  induction l with
  | nil => intro i p a; simp [scanGo]
  | cons it rest ih =>
    intro i p a
    simp only [scanGo, hl it (by simp), Bool.false_eq_true, if_false]
    rw [ih (fun x hx => hl x (by simp [hx])) (i + 1) p (a + 1)]
    simp only [Except.ok.injEq, Prod.mk.injEq, List.length_cons, true_and]
    omega

theorem scanGo_second (l : List IdxItem)
    (hmem : ∃ it ∈ l, isEllipsis it = true) :
    ∀ i p a, scanGo i (some p) a l = .error .multipleEllipsis := by
  induction l with
  | nil => simp at hmem
  | cons it rest ih =>
    intro i p a
    cases hE : isEllipsis it with
    | true => simp [scanGo, hE]
    | false =>
      obtain ⟨x, hx, hxe⟩ := hmem
      rcases List.mem_cons.mp hx with rfl | hx'
      · rw [hE] at hxe; exact absurd hxe (by simp)
      · simp only [scanGo, hE, Bool.false_eq_true, if_false]
        exact ih ⟨x, hx', hxe⟩ (i + 1) p (a + 1)

theorem scanGo_two (l : List IdxItem) :
    ∀ i a, 2 ≤ l.countP isEllipsis →
      scanGo i Option.none a l = .error .multipleEllipsis := by
  induction l with
  | nil => intro i a h; simp [List.countP_nil] at h
  | cons it rest ih =>
    intro i a h
    rw [List.countP_cons] at h
    cases hE : isEllipsis it with
    | true =>
      simp only [scanGo, hE, if_true]
      have hpos : 0 < rest.countP isEllipsis := by
        simp only [hE, if_true] at h
        omega
      exact scanGo_second rest (List.countP_pos_iff.mp hpos) (i + 1) i a
    | false =>
      simp only [scanGo, hE, Bool.false_eq_true, if_false]
      refine ih (i + 1) a ?_
      simp only [hE] at h
      simpa using h

theorem scanGo_split (before after : List IdxItem)
    (hb : ∀ it ∈ before, isEllipsis it = false) :
    ∀ i a, scanGo i Option.none a (before ++ IdxItem.ellipsis :: after)
      = scanGo (i + before.length + 1) (some (i + before.length)) a after := by
  induction before with
  | nil =>
    intro i a
    simp [scanGo, isEllipsis]
  | cons b bsl ih =>
    intro i a
    simp only [List.cons_append, scanGo, hb b (by simp), Bool.false_eq_true, if_false,
      List.append_eq]
    rw [ih (fun x hx => hb x (by simp [hx])) (i + 1) a]
    have e1 : i + 1 + bsl.length = i + (bsl.length + 1) := by omega
    simp only [List.length_cons, e1]

/-! ## Claims C3, C6, C10: the ellipsis normalizer -/

/-- C3: for every batch shape and every index tuple made of a prefix without
ellipsis, one ellipsis, and a suffix without ellipsis, whose non-ellipsis
element count does not exceed the number of batch dimensions,
`convert_ellipsis_to_idx` returns the prefix, then `slice(None)` repeated
`len(batchShape) - (elementsBefore + elementsAfter)` times, then the suffix —
a tuple of length exactly `len(batchShape)`. -/
theorem c3_theorem (before after : List IdxItem) (bs : List Nat)
    (hb : ∀ it ∈ before, isEllipsis it = false)
    (ha : ∀ it ∈ after, isEllipsis it = false)
    (hlen : before.length + after.length ≤ bs.length) :
    convert_ellipsis_to_idx (before ++ IdxItem.ellipsis :: after) bs
      = .ok (before
          ++ List.replicate (bs.length - (before.length + after.length))
              (IdxItem.slc Option.none Option.none Option.none)
          ++ after) := by
  have h1 : before.countP isEllipsis = 0 :=
    List.countP_eq_zero.mpr (by intro x hx; simp [hb x hx])
  have h2 : after.countP isEllipsis = 0 :=
    List.countP_eq_zero.mpr (by intro x hx; simp [ha x hx])
  have hcount : (before ++ IdxItem.ellipsis :: after).countP isEllipsis = 1 := by
    rw [List.countP_append, List.countP_cons, h1, h2]
    simp [isEllipsis]
  simp only [convert_ellipsis_to_idx, hcount, List.length_append, List.length_cons]
  rw [if_neg (by omega)]
  rw [scanGo_split before after hb 0 0, scanGo_no_ellipsis_some after ha _ _ _]
  simp only [Nat.zero_add]
  rw [take_len_of_append, drop_succ_of_append, List.take_length]
  have hrep : bs.length - after.length - before.length
      = bs.length - (before.length + after.length) := by omega
  rw [hrep]
  rw [if_neg (by
    simp only [List.length_append, List.length_replicate]
    omega)]

/-- C3 (witness): `convert_ellipsis_to_idx((0, ...), [2,3,4])` expands the
ellipsis into two full slices. -/
theorem c3_witness :
    convert_ellipsis_to_idx [IdxItem.int 0, IdxItem.ellipsis] [2, 3, 4]
      = .ok [IdxItem.int 0,
          IdxItem.slc Option.none Option.none Option.none,
          IdxItem.slc Option.none Option.none Option.none] :=
  c3_theorem [IdxItem.int 0] [] [2, 3, 4] (by decide) (by decide) (by decide)

/-- C6 (counterexample): an index with two ellipses does not always raise the
multiple-ellipsis error: with more non-ellipsis elements than batch
dimensions, the dimension-count check fires first and
`convert_ellipsis_to_idx((0, 0, ..., ...), [1])` raises
"Not enough dimensions" instead. -/
theorem c6_counterexample :
    convert_ellipsis_to_idx
        [IdxItem.int 0, IdxItem.int 0, IdxItem.ellipsis, IdxItem.ellipsis] [1]
      = .error .notEnoughDims ∧
    convert_ellipsis_to_idx
        [IdxItem.int 0, IdxItem.int 0, IdxItem.ellipsis, IdxItem.ellipsis] [1]
      ≠ .error .multipleEllipsis := by
  decide

/-- C6 (amended): for every index tuple containing two or more ellipsis
markers whose non-ellipsis element count does not exceed the number of batch
dimensions (so that the dimension-count check passes),
`convert_ellipsis_to_idx` raises the multiple-ellipsis error. -/
theorem c6_theorem (idx : List IdxItem) (bs : List Nat)
    (h2 : 2 ≤ idx.countP isEllipsis)
    (hd : idx.length - idx.countP isEllipsis ≤ bs.length) :
    convert_ellipsis_to_idx idx bs = .error .multipleEllipsis := by
  simp only [convert_ellipsis_to_idx]
  rw [if_neg (by omega), scanGo_two idx 0 0 h2]

/-- C6 (witness): two bare ellipses over a one-dimensional batch raise the
multiple-ellipsis error. -/
theorem c6_witness :
    convert_ellipsis_to_idx [IdxItem.ellipsis, IdxItem.ellipsis] [3]
      = .error .multipleEllipsis :=
  c6_theorem [IdxItem.ellipsis, IdxItem.ellipsis] [3] (by decide) (by decide)

/-- C10: for every tuple index containing no ellipsis marker that passes the
dimension-count check, `convert_ellipsis_to_idx` raises the unconditional
`TypeError` coming from `num_dims - after_ellipsis_length - None`, rather
than returning the index unchanged or raising one of the specified error
kinds. -/
theorem c10_theorem (idx : List IdxItem) (bs : List Nat)
    (h0 : idx.countP isEllipsis = 0)
    (hd : idx.length ≤ bs.length) :
    convert_ellipsis_to_idx idx bs = .error .typeErrorNone := by
  have hl : ∀ it ∈ idx, isEllipsis it = false := by
    intro x hx
    have := List.countP_eq_zero.mp h0 x hx
    simpa using this
  simp only [convert_ellipsis_to_idx, h0]
  rw [if_neg (by omega), scanGo_no_ellipsis_none idx hl 0 0]

/-- C10 (witness): a plain integer index with no ellipsis hits the
`TypeError`. -/
theorem c10_witness :
    convert_ellipsis_to_idx [IdxItem.int 0] [3] = .error .typeErrorNone :=
  c10_theorem [IdxItem.int 0] [3] (by decide) (by decide)

/-! ## Claim C9: NormalParamWrapper.forward -/

/-- C9 (counterexample): the scale is not always strictly greater than
`scale_lb`: with the registered `relu` mapping, input `(0, -1)` and
`scale_lb = 1/10000`, the mapped scale `relu(-1) = 0` is clamped up to
exactly `1/10000`, so "strictly greater" fails. -/
theorem c9_counterexample :
    ¬ ∀ y ∈ (NormalParamWrapper.forward ⟨reluMap, 1 / 10000⟩ [0, -1]).2,
        (1 : ℚ) / 10000 < y := by
  intro hall
  have h1 : (NormalParamWrapper.forward ⟨reluMap, 1 / 10000⟩ [0, -1]).2
      = [1 / 10000] := by
    simp [NormalParamWrapper.forward, reluMap]
  rw [h1] at hall
  exact absurd (hall _ (List.mem_singleton_self _)) (lt_irrefl _)

/-- C9 (amended): for every input whose trailing dimension has size `2 * d`
and every scale-mapping function, `NormalParamWrapper.forward` returns a
location of trailing size `d` and a scale of trailing size `d`, and every
element of the scale is at least (not necessarily strictly greater than) the
configured lower bound `scale_lb`. -/
theorem c9_theorem (m : NormalParamWrapper) (d : Nat) (xs : List ℚ)
    (h : xs.length = 2 * d) :
    (m.forward xs).1.length = d ∧ (m.forward xs).2.length = d ∧
      ∀ y ∈ (m.forward xs).2, m.scale_lb ≤ y := by
  refine ⟨?_, ?_, ?_⟩
  · simp only [NormalParamWrapper.forward, List.length_take, h]
    omega
  · simp only [NormalParamWrapper.forward, List.length_map, List.length_drop, h]
    omega
  · intro y hy
    simp only [NormalParamWrapper.forward, List.mem_map] at hy
    obtain ⟨x, hx, rfl⟩ := hy
    exact le_max_right _ _

/-- C9 (witness): the amended claim at the relu mapping, lower bound
`1/10000`, and the concrete input `(0, -1)` (`d = 1`). -/
theorem c9_witness :
    (NormalParamWrapper.forward ⟨reluMap, 1 / 10000⟩ [0, -1]).1.length = 1 ∧
    (NormalParamWrapper.forward ⟨reluMap, 1 / 10000⟩ [0, -1]).2.length = 1 ∧
      ∀ y ∈ (NormalParamWrapper.forward ⟨reluMap, 1 / 10000⟩ [0, -1]).2,
        (1 : ℚ) / 10000 ≤ y :=
  c9_theorem ⟨reluMap, 1 / 10000⟩ 1 [0, -1] rfl

/-! ## Claims C4, C5, C7, C8: the ragged-batch indexer -/

/-- C7: `index_keyedjaggedtensor` rejects every bare integer batch index with
the dedicated error, and for every in-range single-element list index `[i]`
on a well-formed ragged field it succeeds and returns a ragged field of batch
size 1 (as reported by the `_shape` dispatcher). -/
theorem c7_theorem (kjt : KJT) (N i : Nat) (j : Int)
    (hK : kjt.keys ≠ [])
    (hlen : kjt.lengths.length = kjt.keys.length * N)
    (hi : i < N)
    (hv : kjt.values.length = kjt.lengths.sum)
    (hw : kjt.weights.length = kjt.lengths.sum) :
    index_keyedjaggedtensor kjt (KJTIndex.int j) = .error .intIndex ∧
    ∃ r, index_keyedjaggedtensor kjt (KJTIndex.ilist [i]) = .ok r ∧
      kjtShape r = [1] := by
  have hK0 : ¬(kjt.keys.length = 0) := by
    simpa [List.length_eq_zero] using hK
  have hKpos : 0 < kjt.keys.length := Nat.pos_of_ne_zero hK0
  have hN : kjt.lengths.length / kjt.keys.length = N := by
    rw [hlen]; exact Nat.mul_div_cancel_left N hKpos
  have htot : (KJT.offsets kjt).getLastD 0 = kjt.lengths.sum := by
    simpa using getLastD_cumsumFrom kjt.lengths 0 0
  constructor
  · rfl
  · simp only [index_keyedjaggedtensor, hN]
    rw [if_neg hK0]
    rw [if_neg (not_ne_iff.mpr hlen)]
    rw [if_neg (by
      simp only [List.any_cons, List.any_nil, Bool.or_false, decide_eq_true_eq]
      omega)]
    rw [if_neg (by
      intro hcon
      obtain ⟨t, ht, hp⟩ := List.any_eq_true.mp hcon
      have h1 := lt_of_mem_filter_range ht
      have h2 : kjt.values.length ≤ t := of_decide_eq_true hp
      rw [htot] at h1
      omega)]
    rw [if_neg (by
      intro hcon
      obtain ⟨t, ht, hp⟩ := List.any_eq_true.mp hcon
      have h1 := lt_of_mem_filter_range ht
      have h2 : kjt.weights.length ≤ t := of_decide_eq_true hp
      rw [htot] at h1
      omega)]
    refine ⟨_, rfl, ?_⟩
    simp only [kjtShape, length_colSelect, List.length_cons, List.length_nil]
    rw [Nat.mul_div_cancel_left _ hKpos]

/-- C7 (witness): the claim at a concrete one-key field of batch size 2, read
with the bare integer `5` and with the list `[0]`. -/
theorem c7_witness :
    index_keyedjaggedtensor (KJT.mk ["a"] [1, 2] [10, 20, 30] [5, 6, 7])
        (KJTIndex.int 5) = .error .intIndex ∧
    ∃ r, index_keyedjaggedtensor (KJT.mk ["a"] [1, 2] [10, 20, 30] [5, 6, 7])
        (KJTIndex.ilist [0]) = .ok r ∧ kjtShape r = [1] :=
  c7_theorem (KJT.mk ["a"] [1, 2] [10, 20, 30] [5, 6, 7]) 2 0 5
    (by decide) (by decide) (by decide) (by decide) (by decide)

/-- C8: `setitem_keyedjaggedtensor` raises the key-mismatch error whenever the
replacement field's key list differs from the target's (both fields having at
least one key, as a zero-key field would instead hit the
division-by-zero of `len(lengths) // len(keys)`); the check precedes every
buffer computation, so in the state-passing model an erroring write leaves
the target unchanged. -/
theorem c8_theorem (orig other : KJT) (index : List Nat)
    (h1 : orig.keys ≠ []) (h2 : other.keys ≠ []) (hne : other.keys ≠ orig.keys) :
    setitem_keyedjaggedtensor orig index other = .error .keyMismatch := by
  have hK1 : ¬(orig.keys.length = 0) := by simpa [List.length_eq_zero] using h1
  have hK2 : ¬(other.keys.length = 0) := by simpa [List.length_eq_zero] using h2
  simp only [setitem_keyedjaggedtensor]
  rw [if_neg hK1, if_neg hK2, if_pos hne]

/-- C8 (witness): writing a `["b"]`-keyed field over an `["a"]`-keyed one
raises the key-mismatch error. -/
theorem c8_witness :
    setitem_keyedjaggedtensor (KJT.mk ["a"] [1] [5] [7]) [0]
        (KJT.mk ["b"] [1] [5] [7]) = .error .keyMismatch :=
  c8_theorem (KJT.mk ["a"] [1] [5] [7]) (KJT.mk ["b"] [1] [5] [7]) [0]
    (by decide) (by decide) (by decide)

/-- C5: every successful `setitem_keyedjaggedtensor` write re-establishes the
ragged layout invariant on the contents installed into the target object:
the keys are preserved, the new lengths fill a `(K, N)` matrix, the sum of
the lengths equals the length of the values buffer, values and weights
buffers have equal length, and the offsets are the cumulative sums of the
lengths prefixed by 0 (in the model, `offsets()` is derived from the stored
lengths exactly as torchrec recomputes it for the rebuilt tensor; the
in-place aspect is modelled as state replacement: the returned contents are
what the Python code copies field-by-field into the caller's object). -/
theorem c5_theorem (orig other : KJT) (index : List Nat) (r : KJT)
    (h : setitem_keyedjaggedtensor orig index other = .ok r) :
    r.keys = orig.keys ∧
    r.lengths.length = orig.keys.length * (orig.lengths.length / orig.keys.length) ∧
    r.lengths.sum = r.values.length ∧
    r.values.length = r.weights.length ∧
    r.offsets = cumsumFrom 0 r.lengths := by
  unfold setitem_keyedjaggedtensor at h
  by_cases c1 : orig.keys.length = 0
  · rw [if_pos c1] at h; exact Except.noConfusion h
  rw [if_neg c1] at h
  by_cases c2 : other.keys.length = 0
  · rw [if_pos c2] at h; exact Except.noConfusion h
  rw [if_neg c2] at h
  by_cases c3 : other.keys ≠ orig.keys
  · rw [if_pos c3] at h; exact Except.noConfusion h
  rw [if_neg c3] at h
  by_cases c4 : orig.lengths.length
      ≠ orig.keys.length * (orig.lengths.length / orig.keys.length)
  · rw [if_pos c4] at h; exact Except.noConfusion h
  rw [if_neg c4] at h
  by_cases c5 : other.lengths.length
      ≠ orig.keys.length * (other.lengths.length / other.keys.length)
  · rw [if_pos c5] at h; exact Except.noConfusion h
  rw [if_neg c5] at h
  by_cases c6 : (index.any
      (fun c => decide (orig.lengths.length / orig.keys.length ≤ c))) = true
  · rw [if_pos c6] at h; exact Except.noConfusion h
  rw [if_neg c6] at h
  by_cases c7 : index.length ≠ other.lengths.length / other.keys.length
  · rw [if_pos c7] at h; exact Except.noConfusion h
  rw [if_neg c7] at h
  by_cases c8 : ((setIndexToKeep orig index).any
      (fun t => decide (orig.values.length ≤ t))) = true
  · rw [if_pos c8] at h; exact Except.noConfusion h
  rw [if_neg c8] at h
  by_cases c9 : ((setIndexToKeep orig index).any
      (fun t => decide (orig.weights.length ≤ t))) = true
  · rw [if_pos c9] at h; exact Except.noConfusion h
  rw [if_neg c9] at h
  by_cases c10 : (setNewKeep orig other index).length
      ≠ (setValuesToKeep orig index).length
  · rw [if_pos c10] at h; exact Except.noConfusion h
  rw [if_neg c10] at h
  by_cases c11 : (setNewElts orig other index).length ≠ other.values.length
  · rw [if_pos c11] at h; exact Except.noConfusion h
  rw [if_neg c11] at h
  by_cases c12 : ((setNewKeep orig other index).any
      (fun t => decide (setNumel orig other index ≤ t))) = true
  · rw [if_pos c12] at h; exact Except.noConfusion h
  rw [if_neg c12] at h
  by_cases c13 : ((setNewElts orig other index).any
      (fun t => decide (setNumel orig other index ≤ t))) = true
  · rw [if_pos c13] at h; exact Except.noConfusion h
  rw [if_neg c13] at h
  by_cases c14 : (setNewKeep orig other index).length
      ≠ (setWeightsToKeep orig index).length
  · rw [if_pos c14] at h; exact Except.noConfusion h
  rw [if_neg c14] at h
  by_cases c15 : (setNewElts orig other index).length ≠ other.weights.length
  · rw [if_pos c15] at h; exact Except.noConfusion h
  rw [if_neg c15] at h
  rw [ne_eq, not_not] at c10 c11
  injection h with h'
  subst h'
  refine ⟨rfl, ?_, ?_, ?_, rfl⟩
  · exact length_scatterCols _ _ _ _ _ _
  · simp only [length_scatterAt, List.length_replicate, setNumel]
    have c10' : ((List.range
        ((cumsumFrom 0 (setLengthsOut orig other index)).getLastD 0)).filter
          (fun t => ! rowRangesSel (setNewOffsets orig other index)
            orig.keys.length (orig.lengths.length / orig.keys.length)
            index t)).length
        = (setValuesToKeep orig index).length := by
      simpa only [setNewKeep, setNewOffsets] using c10
    have c11' : ((List.range
        ((cumsumFrom 0 (setLengthsOut orig other index)).getLastD 0)).filter
          (rowRangesSel (setNewOffsets orig other index) orig.keys.length
            (orig.lengths.length / orig.keys.length) index)).length
        = other.values.length := by
      simpa only [setNewElts, setNewOffsets] using c11
    exact sum_eq_of_partition_checks _ _ _ _ c10' c11'
  · simp only [length_scatterAt]

/-- C5 (witness): the invariant at a concrete successful write: one key,
batch size 2, row 0 rewritten from 1 to 3 entries. -/
theorem c5_witness :
    (KJT.mk ["a"] [3, 2] [7, 8, 9, 20, 30] [1, 2, 3, 6, 7]).keys
        = (KJT.mk ["a"] [1, 2] [10, 20, 30] [5, 6, 7]).keys ∧
    (KJT.mk ["a"] [3, 2] [7, 8, 9, 20, 30] [1, 2, 3, 6, 7]).lengths.length
        = (KJT.mk ["a"] [1, 2] [10, 20, 30] [5, 6, 7]).keys.length
          * ((KJT.mk ["a"] [1, 2] [10, 20, 30] [5, 6, 7]).lengths.length
            / (KJT.mk ["a"] [1, 2] [10, 20, 30] [5, 6, 7]).keys.length) ∧
    (KJT.mk ["a"] [3, 2] [7, 8, 9, 20, 30] [1, 2, 3, 6, 7]).lengths.sum
        = (KJT.mk ["a"] [3, 2] [7, 8, 9, 20, 30] [1, 2, 3, 6, 7]).values.length ∧
    (KJT.mk ["a"] [3, 2] [7, 8, 9, 20, 30] [1, 2, 3, 6, 7]).values.length
        = (KJT.mk ["a"] [3, 2] [7, 8, 9, 20, 30] [1, 2, 3, 6, 7]).weights.length ∧
    (KJT.mk ["a"] [3, 2] [7, 8, 9, 20, 30] [1, 2, 3, 6, 7]).offsets
        = cumsumFrom 0 (KJT.mk ["a"] [3, 2] [7, 8, 9, 20, 30] [1, 2, 3, 6, 7]).lengths :=
  c5_theorem (KJT.mk ["a"] [1, 2] [10, 20, 30] [5, 6, 7])
    (KJT.mk ["a"] [3] [7, 8, 9] [1, 2, 3]) [0]
    (KJT.mk ["a"] [3, 2] [7, 8, 9, 20, 30] [1, 2, 3, 6, 7]) (by decide)

/-- C4: round-trip on a ragged field with keys `{"a","b"}` and batch size 4:
reading rows `[1,3]` with `index_keyedjaggedtensor` and writing the result
back unchanged to the same positions with `setitem_keyedjaggedtensor`
reproduces the original lengths, offsets (derived from the lengths), values,
and weights bit-for-bit. -/
theorem c4_theorem :
    (index_keyedjaggedtensor
        (KJT.mk ["a", "b"] [1, 2, 0, 3, 2, 1, 2, 1]
          [101, 102, 103, 104, 105, 106, 107, 108, 109, 110, 111, 112]
          [201, 202, 203, 204, 205, 206, 207, 208, 209, 210, 211, 212])
        (KJTIndex.ilist [1, 3])).bind
      (fun sub => setitem_keyedjaggedtensor
        (KJT.mk ["a", "b"] [1, 2, 0, 3, 2, 1, 2, 1]
          [101, 102, 103, 104, 105, 106, 107, 108, 109, 110, 111, 112]
          [201, 202, 203, 204, 205, 206, 207, 208, 209, 210, 211, 212])
        [1, 3] sub)
    = Except.ok
        (KJT.mk ["a", "b"] [1, 2, 0, 3, 2, 1, 2, 1]
          [101, 102, 103, 104, 105, 106, 107, 108, 109, 110, 111, 112]
          [201, 202, 203, 204, 205, 206, 207, 208, 209, 210, 211, 212]) := by
  decide

end Tensordict
